import Mathlib

/-!
# Verification of the matils observer pattern

Shallow embedding of `matils/patterns/observer.py` (classes `Observer` and
`Observable`) and of the ZeroMQ bridge `matils/patterns/zmq_observer.py`
(classes `ZMQObserver` and `SensorsReader`), with theorems settling the
behavioural claims about registration, notification fan-out, reset, the
wildcard group and the wire frames.

Modelling conventions:
* An observer is an opaque handle; Python membership tests (`in`, `list.remove`)
  compare by object identity for these handles, which we model by a `Nat` id.
* `Observable._observers` is a Python `dict` from event name to list of
  observers.  Python dicts preserve insertion order: assigning to an existing
  key keeps its position, a new key is appended at the end.  We model the dict
  as an association list `List (String × List Observer)` with exactly that
  update discipline (`setGroup`).
* A Python `KeyError` path is modelled by matching on `Option` results of the
  lookup (`findGroup`).
-/

namespace Matils

/-- Opaque observer handle (Python object identity). -/
abbrev Observer := Nat

/-- The `Observable._observers` dictionary: insertion-ordered mapping from
event name to the list of registered observers. -/
abbrev Groups := List (String × List Observer)

/-- Python `d[k]` lookup on the observers dict: `some` the stored list, or
`none` when the key is absent (the `KeyError` case). -/
def findGroup : Groups → String → Option (List Observer)
  | [], _ => none
  | (k, v) :: rest, key => if k = key then some v else findGroup rest key

/-- Python `d[k] = v` on the observers dict: overwrite in place when the key
exists, otherwise append the new key at the end (dict insertion order). -/
def setGroup : Groups → String → List Observer → Groups
  | [], key, v => [(key, v)]
  | (k, w) :: rest, key, v =>
      if k = key then (key, v) :: rest else (k, w) :: setGroup rest key v

/-- Python `list.remove(x)`: drop the first occurrence of `x` (identity
comparison); unchanged when absent (the code guards with `x in list`). -/
def removeFirst : List Observer → Observer → List Observer
  | [], _ => []
  | x :: rest, o => if x = o then rest else x :: removeFirst rest o

/-- `Observable.__init__`: `self._observers = dict()` followed by
`self._observers['all'] = list()`. -/
def initObservers : Groups := [("all", [])]

/-- One iteration of the loop in `Observable.register` for a single event
name.  The source guard is
`if observer not in self._observers[event] or observer not in self._observers['all']`
inside a `try`, with the `except KeyError` branch doing
`self._observers[event] = [observer]`.  Short-circuit evaluation: the `'all'`
lookup only runs when the observer is already in the event group; if `'all'`
were absent, that lookup's `KeyError` would also land in the except branch. -/
def registerEvent (st : Groups) (o : Observer) (e : String) : Groups :=
  match findGroup st e with
  | none => setGroup st e [o]
  | some l =>
      if o ∉ l then setGroup st e (l ++ [o])
      else
        match findGroup st "all" with
        | none => setGroup st e [o]
        | some la => if o ∉ la then setGroup st e (l ++ [o]) else st

/-- `Observable.register` with a list of event names (a single string argument
is wrapped into a one-element list by the source). -/
def registerList (st : Groups) (o : Observer) (events : List String) : Groups :=
  events.foldl (fun s e => registerEvent s o e) st

/-- One iteration of the loop in `Observable.unregister` for a single event
name: the `'all'` case walks every group and removes the observer (first
occurrence, via `list.remove`); the named case removes from that group only,
with absent observer or absent key a silent no-op. -/
def unregisterEvent (st : Groups) (o : Observer) (e : String) : Groups :=
  if e = "all" then
    st.map (fun g => (g.1, removeFirst g.2 o))
  else
    match findGroup st e with
    | none => st
    | some l => if o ∈ l then setGroup st e (removeFirst l o) else st

/-- `Observable.unregister` with a list of event names. -/
def unregisterList (st : Groups) (o : Observer) (events : List String) : Groups :=
  events.foldl (fun s e => unregisterEvent s o e) st

/-- `Observable.reset`: `self._observers.clear()` then
`self._observers['all'] = list()`. -/
def resetObservers (_st : Groups) : Groups := [("all", [])]

/-- The sequence of observers whose `update` is invoked by
`Observable.notify(data, event)`, in invocation order: first everyone in the
wildcard group `'all'`, then everyone in the event's group when the key
exists.  `none` models the `KeyError` a missing `'all'` key would raise
(unreachable in practice, see the wildcard invariant). -/
def notifySeq (st : Groups) (e : String) : Option (List Observer) :=
  match findGroup st "all" with
  | none => none
  | some la =>
      some (la ++ (match findGroup st e with
                   | none => []
                   | some le => le))

/-- The full call list of `Observable.notify`: each invoked observer receives
`update(data, event)` with the same payload and event name. -/
def notifyCalls {α : Type} (st : Groups) (d : α) (e : String) :
    Option (List (Observer × α × String)) :=
  (notifySeq st e).map (fun seq => seq.map (fun o => (o, d, e)))

/-- The operations that mutate (or, for notify, read) the registry, as issued
by callers of `Observable`; a plain-string `to`/`from_events` argument is the
one-element list. -/
inductive Op : Type
  | reg (o : Observer) (events : List String)
  | unreg (o : Observer) (events : List String)
  | res
  | notif (e : String)

/-- Effect of one `Observable` operation on the registry (`notify` reads but
does not mutate it). -/
def applyOp (st : Groups) : Op → Groups
  | .reg o events => registerList st o events
  | .unreg o events => unregisterList st o events
  | .res => resetObservers st
  | .notif _ => st

/-- Registry state after a sequence of operations on a fresh `Observable`. -/
def runOps (ops : List Op) : Groups := ops.foldl applyOp initObservers

/-- Fan-out of one `notify` call when observers may raise from `update`:
walks the invocation sequence, recording each observer whose `update` is
called; the first raising observer ends the walk (its exception is not
caught), the flag is `true` iff `notify` returns normally. -/
def fanOut (raises : Observer → Bool) : List Observer → List Observer × Bool
  | [] => ([], true)
  | o :: rest =>
      if raises o then ([o], false)
      else
        let r := fanOut raises rest
        (o :: r.1, r.2)

/-- `Observable.notify` under the exception model: the observers actually
invoked, in order, and whether the call completed without an exception. -/
def notifyRun (st : Groups) (raises : Observer → Bool) (e : String) :
    Option (List Observer × Bool) :=
  (notifySeq st e).map (fanOut raises)

/-! ## ZeroMQ bridge (`matils/patterns/zmq_observer.py`) -/

/-- A byte string (Python `bytes`), one natural per byte. -/
abbrev Bytes := List Nat

/-- A ZeroMQ multipart message: a list of byte-string parts. -/
abbrev Frame := List Bytes

/-- UTF-8 encoding of one character (what Python `str.encode()` produces per
code point). -/
def utf8Char (c : Char) : Bytes :=
  let n := c.toNat
  if n < 128 then [n]
  else if n < 2048 then [192 + n / 64, 128 + n % 64]
  else if n < 65536 then
    [224 + n / 4096, 128 + (n / 64) % 64, 128 + n % 64]
  else
    [240 + n / 262144, 128 + (n / 4096) % 64, 128 + (n / 64) % 64, 128 + n % 64]

/-- Python `s.encode()`: UTF-8 encoding of a string. -/
def utf8Encode (s : String) : Bytes :=
  s.data.foldr (fun c acc => utf8Char c ++ acc) []

/-- Atomic payload values used by the bridge examples: strings and numeric
literals (a numeric is carried by its Python `repr` text; its arithmetic plays
no role here). -/
inductive PyAtom : Type
  | astr (s : String)
  | anum (lit : String)
deriving DecidableEq

/-- Payloads handled by the bridge examples: an atom, or a flat dict of atoms
(such as `{'value': 23.5}`). -/
inductive PyVal : Type
  | atom (a : PyAtom)
  | dict (entries : List (String × PyAtom))
deriving DecidableEq

/-- Python `repr` of an atom as it appears inside a dict display. -/
def pyReprAtom : PyAtom → String
  | .astr s => "'" ++ s ++ "'"
  | .anum lit => lit

/-- Python `str(data)` for the payload fragment: a top-level string prints
bare, a dict prints as `\x7b'k': v, ...\x7d` with `repr` of each entry. -/
def pyStr : PyVal → String
  | .atom (.astr s) => s
  | .atom (.anum lit) => lit
  | .dict entries =>
      "\x7b" ++
        String.intercalate ", "
          (entries.map (fun kv => pyReprAtom (.astr kv.1) ++ ": " ++ pyReprAtom kv.2)) ++
      "\x7d"

/-- `SensorsReader.notify(data, event)` in `zmq_observer.py`:
`await self.socket.send_multipart([event.encode(), str(data).encode()])`.
The socket is modelled by the list of frames sent so far; one call appends
exactly one two-part frame. -/
def sensorsReaderNotify (sent : List Frame) (data : PyVal) (event : String) :
    List Frame :=
  sent ++ [[utf8Encode event, utf8Encode (pyStr data)]]

/-- A Python value passed to `update` by the subscriber bridge: either a raw
`bytes` object or a `str`.  Distinct constructors model that in Python a
`bytes` object never compares equal to a `str`. -/
inductive PyArg : Type
  | abytes (b : Bytes)
  | astrv (s : String)
deriving DecidableEq

/-- One iteration of `ZMQObserver.listen`: after
`msg = await self.zmq_socket.recv_multipart()` the body runs
`self.update(msg[1], msg[0])` — the `(data, event)` arguments are the raw
frame parts, with no decoding.  `none` models the `IndexError` a frame with
fewer than two parts would raise. -/
def listenUpdateArgs : Frame → Option (PyArg × PyArg)
  | tb :: pb :: _ => some (.abytes pb, .abytes tb)
  | _ => none

/-- The concrete payload `{'value': 23.5}` from the round-trip scenario. -/
def samplePayload : PyVal := .dict [("value", .anum "23.5")]

section Lemmas

theorem findGroup_setGroup_self (st : Groups) (k : String) (v : List Observer) :
    findGroup (setGroup st k v) k = some v := by
  induction st with
  | nil => simp [setGroup, findGroup]
  | cons g rest ih =>
      by_cases h : g.1 = k
      · simp [setGroup, h, findGroup]
      · simp [setGroup, h, findGroup, ih]

theorem findGroup_setGroup_ne (st : Groups) (k k' : String) (v : List Observer)
    (h : k ≠ k') : findGroup (setGroup st k v) k' = findGroup st k' := by
  induction st with
  | nil => simp [setGroup, findGroup, h]
  | cons g rest ih =>
      by_cases hg : g.1 = k
      · simp [setGroup, hg, findGroup, h]
      · simp [setGroup, hg, findGroup, ih]

theorem findGroup_all_setGroup_isSome (st : Groups) (e : String)
    (v : List Observer) (h : (findGroup st "all").isSome) :
    (findGroup (setGroup st e v) "all").isSome := by
  by_cases he : e = "all"
  · subst he; simp [findGroup_setGroup_self]
  · rw [findGroup_setGroup_ne st e "all" v he]; exact h

theorem findGroup_map_values (st : Groups) (f : List Observer → List Observer)
    (k : String) :
    findGroup (st.map (fun g => (g.1, f g.2))) k = (findGroup st k).map f := by
  induction st with
  | nil => simp [findGroup]
  | cons g rest ih =>
      by_cases h : g.1 = k
      · simp [findGroup, h]
      · simp [findGroup, h, ih]

theorem registerEvent_all_isSome (st : Groups) (o : Observer) (e : String)
    (h : (findGroup st "all").isSome) :
    (findGroup (registerEvent st o e) "all").isSome := by
  unfold registerEvent
  cases hfe : findGroup st e with
  | none => exact findGroup_all_setGroup_isSome st e [o] h
  | some l =>
      by_cases hol : o ∈ l
      · simp only [hol, not_true_eq_false, if_false]
        cases hfa : findGroup st "all" with
        | none => exact findGroup_all_setGroup_isSome st e [o] h
        | some la =>
            by_cases hola : o ∈ la
            · simpa [hola] using h
            · simpa [hola] using findGroup_all_setGroup_isSome st e (l ++ [o]) h
      · simpa [hol] using findGroup_all_setGroup_isSome st e (l ++ [o]) h

theorem unregisterEvent_all_isSome (st : Groups) (o : Observer) (e : String)
    (h : (findGroup st "all").isSome) :
    (findGroup (unregisterEvent st o e) "all").isSome := by
  unfold unregisterEvent
  by_cases he : e = "all"
  · simp only [he, if_true]
    rw [findGroup_map_values st (fun l => removeFirst l o) "all"]
    simpa using h
  · simp only [he, if_false]
    cases hfe : findGroup st e with
    | none => exact h
    | some l =>
        by_cases hol : o ∈ l
        · simpa [hol] using findGroup_all_setGroup_isSome st e (removeFirst l o) h
        · simpa [hol] using h

theorem registerList_all_isSome (events : List String) (st : Groups)
    (o : Observer) (h : (findGroup st "all").isSome) :
    (findGroup (registerList st o events) "all").isSome := by
  induction events generalizing st with
  | nil => exact h
  | cons e rest ih =>
      exact ih (registerEvent st o e) (registerEvent_all_isSome st o e h)

theorem unregisterList_all_isSome (events : List String) (st : Groups)
    (o : Observer) (h : (findGroup st "all").isSome) :
    (findGroup (unregisterList st o events) "all").isSome := by
  induction events generalizing st with
  | nil => exact h
  | cons e rest ih =>
      exact ih (unregisterEvent st o e) (unregisterEvent_all_isSome st o e h)

theorem applyOp_all_isSome (st : Groups) (op : Op)
    (h : (findGroup st "all").isSome) :
    (findGroup (applyOp st op) "all").isSome := by
  cases op with
  | reg o events => exact registerList_all_isSome events st o h
  | unreg o events => exact unregisterList_all_isSome events st o h
  | res => simp [applyOp, resetObservers, findGroup]
  | notif e => exact h

theorem foldl_applyOp_all_isSome (ops : List Op) (st : Groups)
    (h : (findGroup st "all").isSome) :
    (findGroup (ops.foldl applyOp st) "all").isSome := by
  induction ops generalizing st with
  | nil => exact h
  | cons op rest ih => exact ih (applyOp st op) (applyOp_all_isSome st op h)

theorem fanOut_no_raise (raises : Observer → Bool) (l : List Observer)
    (h : ∀ o ∈ l, raises o = false) : fanOut raises l = (l, true) := by
  induction l with
  | nil => simp [fanOut]
  | cons o rest ih =>
      have ho : raises o = false := h o (by simp)
      have hrest : ∀ o' ∈ rest, raises o' = false := fun o' ho' => h o' (by simp [ho'])
      simp [fanOut, ho, ih hrest]

theorem fanOut_first_raise (raises : Observer → Bool) (pre post : List Observer)
    (f : Observer) (hpre : ∀ o ∈ pre, raises o = false) (hf : raises f = true) :
    fanOut raises (pre ++ f :: post) = (pre ++ [f], false) := by
  induction pre with
  | nil => simp [fanOut, hf]
  | cons o rest ih =>
      have ho : raises o = false := hpre o (by simp)
      have hrest : ∀ o' ∈ rest, raises o' = false :=
        fun o' ho' => hpre o' (by simp [ho'])
      simp [fanOut, ho, ih hrest]

end Lemmas

/-! ## Claims -/

/-- Claim C1 (refuted by the code, register is not idempotent per topic):
evaluating `Observable.register` on a fresh registry, the second
`register(S, 'temperature')` appends a duplicate — the membership guard
`observer not in self._observers[event] or observer not in self._observers['all']`
passes because S is not in the wildcard group — so the topic group becomes
`[S, S]` and a subsequent `notify` invokes S twice via the topic group. -/
theorem c1_register_duplicates_on_repeat :
    registerEvent initObservers 0 "temperature"
        = [("all", []), ("temperature", [0])]
  ∧ registerEvent (registerEvent initObservers 0 "temperature") 0 "temperature"
        = [("all", []), ("temperature", [0, 0])]
  ∧ notifySeq (registerEvent (registerEvent initObservers 0 "temperature") 0
        "temperature") "temperature" = some [0, 0]
  ∧ ([0, 0] : List Observer).count 0 = 2 := by
  refine ⟨by decide, by decide, by decide, by decide⟩

/-- Claim C2 (refuted by the code, wildcard membership does not suppress a
specific registration): with S already in the `'all'` group, `register(S, T)`
still adds S under T — creating the T group when absent, and appending to it
when it already exists — because the guard's first disjunct
`observer not in self._observers[event]` is true. -/
theorem c2_wildcard_does_not_suppress :
    registerEvent initObservers 0 "all" = [("all", [0])]
  ∧ registerEvent (registerEvent initObservers 0 "all") 0 "temperature"
        = [("all", [0]), ("temperature", [0])]
  ∧ findGroup (registerEvent (registerEvent initObservers 0 "all") 0
        "temperature") "temperature" = some [0]
  ∧ registerEvent [("all", [0]), ("temperature", [1])] 0 "temperature"
        = [("all", [0]), ("temperature", [1, 0])] := by
  refine ⟨by decide, by decide, by decide, by decide⟩

/-- Claim C3 (refuted by the code on duplicate-bearing states):
after `register(S, 't')` twice — which the register bug turns into the group
`[S, S]` — `unregister(S, 'all')` removes only the first occurrence
(`list.remove`), so S still occurs in the `'t'` group and a subsequent
`notify(payload, 't')` still invokes S once. -/
theorem c3_unregister_all_leaves_duplicate :
    unregisterEvent (registerEvent (registerEvent initObservers 0 "t") 0 "t")
        0 "all" = [("all", []), ("t", [0])]
  ∧ notifySeq (unregisterEvent (registerEvent (registerEvent initObservers 0
        "t") 0 "t") 0 "all") "t" = some [0] := by
  refine ⟨by decide, by decide⟩

/-- Claim C4: `notify(payload, topic)` delivers first to every subscriber in
the wildcard group in registration order, then to the named topic's group in
registration order only if that group exists, skipping it silently otherwise;
with zero registrations `notify(payload, "nonexistent")` invokes no one; and
registering S1 then S2 to the same topic T makes `notify` invoke S1 strictly
before S2. -/
theorem c4_notify_order_and_skip :
    (∀ (st : Groups) (la : List Observer) (α : Type) (d : α) (e : String),
      findGroup st "all" = some la →
      notifyCalls st d e
        = some ((la ++ (match findGroup st e with
                        | none => []
                        | some le => le)).map (fun o => (o, d, e))))
  ∧ (∀ (α : Type) (d : α), notifyCalls initObservers d "nonexistent" = some [])
  ∧ (∀ (s1 s2 : Observer) (α : Type) (d : α) (t : String), t ≠ "all" →
      notifyCalls (registerEvent (registerEvent initObservers s1 t) s2 t) d t
        = some [(s1, d, t), (s2, d, t)]) := by
  refine ⟨?_, ?_, ?_⟩
  · intro st la α d e h
    simp [notifyCalls, notifySeq, h]
  · intro α d
    have h : findGroup initObservers "nonexistent" = none := by decide
    simp [notifyCalls, notifySeq, initObservers, findGroup, h]
  · intro s1 s2 α d t ht
    have hallt : ¬ ("all" = t) := fun h => ht h.symm
    have h1 : registerEvent initObservers s1 t = [("all", []), (t, [s1])] := by
      simp [registerEvent, initObservers, findGroup, hallt, setGroup]
    have h2 : registerEvent [("all", []), (t, [s1])] s2 t
        = [("all", []), (t, [s1, s2])] := by
      by_cases hs : s2 = s1
      · subst hs
        simp [registerEvent, findGroup, hallt, setGroup]
      · simp [registerEvent, findGroup, hallt, setGroup, hs]
    rw [h1, h2]
    simp [notifyCalls, notifySeq, findGroup, hallt]

/-- Witness for C4: concrete instances of both hypothesis-bearing parts. -/
theorem c4_notify_order_and_skip_witness :
    notifyCalls ([("all", [7]), ("t", [1, 2])] : Groups) (5 : Nat) "t"
        = some [(7, 5, "t"), (1, 5, "t"), (2, 5, "t")]
  ∧ notifyCalls (registerEvent (registerEvent initObservers 1 "t") 2 "t")
        (5 : Nat) "t" = some [(1, 5, "t"), (2, 5, "t")] := by
  constructor
  · exact (c4_notify_order_and_skip.1 [("all", [7]), ("t", [1, 2])] [7] Nat 5
      "t" (by decide)).trans (by decide)
  · exact c4_notify_order_and_skip.2.2 1 2 Nat 5 "t" (by decide)

/-- Claim C5: an exception raised by a subscriber's `update` during `notify`
is not caught: the call ends abnormally, every subscriber before the failing
one in the fan-out order keeps its delivery, the failing one was invoked, and
no subscriber after it is invoked in that call. -/
theorem c5_exception_aborts_fanout :
    ∀ (st : Groups) (raises : Observer → Bool) (e : String)
      (seq pre post : List Observer) (f : Observer),
      notifySeq st e = some seq →
      seq = pre ++ f :: post →
      (∀ o ∈ pre, raises o = false) →
      raises f = true →
      notifyRun st raises e = some (pre ++ [f], false) := by
  intro st raises e seq pre post f hseq hsplit hpre hf
  simp [notifyRun, hseq, hsplit, fanOut_first_raise raises pre post f hpre hf]

/-- Witness for C5: wildcard group `[1, 2, 3]` where observer 2 raises —
observer 1 keeps its delivery, 2 is invoked and raises, 3 is never reached,
and `notify` ends abnormally. -/
theorem c5_exception_aborts_fanout_witness :
    notifyRun [("all", [1, 2, 3])] (fun o => o == 2) "x"
        = some ([1, 2], false) := by
  exact (c5_exception_aborts_fanout [("all", [1, 2, 3])] (fun o => o == 2) "x"
    [1, 2, 3] [1] [3] 2 (by decide) (by decide) (by decide)
    (by decide)).trans (by decide)

/-- Claim C6 (refuted by the code, no decoding happens): for the round-trip
input — publisher `notify({'value': 23.5}, 'sensors.temperature')` — the
subscriber loop passes `update` the raw frame parts `(msg[1], msg[0])`: the
event argument is the `bytes` object `b'sensors.temperature'`, which as a
Python value is never equal to any `str` (in particular not to
`'sensors.temperature'`), and the data argument is the undecoded serialized
bytes. -/
theorem c6_listen_passes_raw_bytes :
    sensorsReaderNotify [] samplePayload "sensors.temperature"
        = [[utf8Encode "sensors.temperature",
            utf8Encode "\x7b'value': 23.5\x7d"]]
  ∧ listenUpdateArgs [utf8Encode "sensors.temperature",
        utf8Encode "\x7b'value': 23.5\x7d"]
        = some (.abytes (utf8Encode "\x7b'value': 23.5\x7d"),
                .abytes (utf8Encode "sensors.temperature"))
  ∧ ∀ s : String,
      PyArg.abytes (utf8Encode "sensors.temperature") ≠ PyArg.astrv s := by
  refine ⟨by decide, by decide, fun s h => PyArg.noConfusion h⟩

/-- Claim C7: `reset()` leaves the registry observably identical to a freshly
constructed one, namely the mapping with the single entry `'all' ↦ []`, and
any `notify` issued after `reset()` and before any new registration invokes
no subscriber. -/
theorem c7_reset_is_fresh :
    ∀ st : Groups, resetObservers st = initObservers
      ∧ ∀ (α : Type) (d : α) (e : String),
          notifyCalls (resetObservers st) d e = some [] := by
  intro st
  refine ⟨rfl, fun α d e => ?_⟩
  by_cases he : "all" = e
  · simp [resetObservers, notifyCalls, notifySeq, findGroup, he]
  · simp [resetObservers, notifyCalls, notifySeq, findGroup, he]

/-- Claim C8: the publisher bridge's `notify(payload, topic)` sends exactly
one two-part frame, topic part first: the UTF-8 encoding of the topic string,
then the byte encoding of the stringified payload; evaluated concretely on
`notify({'value': 23.5}, 'sensors.temperature')`. -/
theorem c8_publisher_two_part_frame :
    (∀ (sent : List Frame) (data : PyVal) (event : String),
      sensorsReaderNotify sent data event
          = sent ++ [[utf8Encode event, utf8Encode (pyStr data)]]
        ∧ (sensorsReaderNotify sent data event).length = sent.length + 1)
  ∧ sensorsReaderNotify [] samplePayload "sensors.temperature"
      = [[[115, 101, 110, 115, 111, 114, 115, 46, 116, 101, 109, 112, 101,
           114, 97, 116, 117, 114, 101],
          [123, 39, 118, 97, 108, 117, 101, 39, 58, 32, 50, 51, 46, 53,
           125]]] := by
  refine ⟨fun sent data event => ⟨rfl, by simp [sensorsReaderNotify]⟩,
    by decide⟩

/-- Claim C9: the wildcard group `'all'` is present in the registry mapping
in every reachable state — after construction, after `reset()`, and after
every sequence of `register`, `unregister`, `notify` and `reset` calls. -/
theorem c9_wildcard_always_present :
    (findGroup initObservers "all").isSome = true
  ∧ (∀ st : Groups, (findGroup (resetObservers st) "all").isSome = true)
  ∧ (∀ ops : List Op, (findGroup (runOps ops) "all").isSome = true) := by
  refine ⟨by decide, fun st => by simp [resetObservers, findGroup], fun ops => ?_⟩
  exact foldl_applyOp_all_isSome ops initObservers (by decide)

/-- Claim C10: `notify(payload, "all")` fans out over the wildcard group
twice — once in the wildcard pass and once in the named-topic pass, since the
`'all'` key is always in the mapping — so each subscriber in the wildcard
group is invoked twice as often as it occurs there (twice, for a subscriber
registered once). -/
theorem c10_notify_all_double_delivery :
    ∀ (st : Groups) (la : List Observer),
      findGroup st "all" = some la →
      notifySeq st "all" = some (la ++ la)
        ∧ ∀ s : Observer, (la ++ la).count s = 2 * la.count s := by
  intro st la h
  refine ⟨by simp [notifySeq, h], fun s => ?_⟩
  simp [List.count_append, two_mul]

/-- Witness for C10: wildcard group `[4, 9]` — `notify(payload, "all")`
invokes 4, 9, 4, 9, delivering twice to each. -/
theorem c10_notify_all_double_delivery_witness :
    notifySeq [("all", [4, 9])] "all" = some [4, 9, 4, 9]
  ∧ (([4, 9] : List Observer) ++ [4, 9]).count 4
      = 2 * ([4, 9] : List Observer).count 4 := by
  have h := c10_notify_all_double_delivery [("all", [4, 9])] [4, 9] (by decide)
  exact ⟨h.1.trans (by decide), h.2 4⟩

end Matils
